import Mathlib

/-!
Shallow embedding of the Image reconciler of opensovereigncloud/ceph-provider
(`pkg/controllers/image_controller.go`) together with a model of the external
collaborators it is specified against: the keyed entity store, the backend
block-volume driver and the deduplicating rate-limited work queue.

The entity stores are modelled as association lists keyed by the entity ID,
the backend as a map from volume name to its size in bytes, and every external
call whose outcome is not determined by that state (registry resolution,
transient backend failures, credential fetch) is resolved through an explicit
`Oracle`.  Each embedded operation returns, next to its result, the updated
world and a trace of the store writes and backend volume operations it
performed, so that ordering and frame properties can be stated about traces.
-/

namespace CephProvider

/-- Lifecycle state of an image, `api.ImageState`. -/
inductive ImageState where
  | pending
  | available
  deriving DecidableEq

/-- Lifecycle state of a snapshot, `api.SnapshotState`. -/
inductive SnapshotState where
  | pending
  | populated
  deriving DecidableEq

/-- Access descriptor published on an available image, `api.ImageAccess`. -/
structure ImageAccess where
  monitors : String
  handle : String
  user : String
  userKey : String
  wwn : String
  deriving DecidableEq

/-- Reconciler-owned status of an image, `api.ImageStatus`. -/
structure ImageStatus where
  state : ImageState
  access : Option ImageAccess
  deriving DecidableEq

/-- Desired state of an image, `api.ImageSpec`. -/
structure ImageSpec where
  image : String
  snapshotRef : Option String
  size : Nat
  limits : List (String × Int)
  deriving DecidableEq

/-- One image entity, `api.Image` (metadata fields inlined). -/
structure Image where
  id : String
  labels : List (String × String)
  finalizers : List String
  deletedAt : Option Nat
  spec : ImageSpec
  status : ImageStatus
  deriving DecidableEq

/-- Status of a snapshot, `api.SnapshotStatus`. -/
structure SnapshotStatus where
  state : SnapshotState
  deriving DecidableEq

/-- One snapshot entity, `api.Snapshot` (metadata fields inlined; the source
is the resolved `locator@digest` string). -/
structure Snapshot where
  id : String
  labels : List (String × String)
  source : String
  status : SnapshotStatus
  deriving DecidableEq

/-- Association-list lookup keyed by `String`. -/
def assocGet {α : Type} : List (String × α) → String → Option α
  | [], _ => none
  | p :: rest, k => if p.1 = k then some p.2 else assocGet rest k

/-- Association-list insert-or-replace keyed by `String`. -/
def assocSet {α : Type} : List (String × α) → String → α → List (String × α)
  | [], k, v => [(k, v)]
  | p :: rest, k, v => if p.1 = k then (k, v) :: rest else p :: assocSet rest k v

/-- Association-list delete keyed by `String`. -/
def assocDel {α : Type} : List (String × α) → String → List (String × α)
  | [], _ => []
  | p :: rest, k => if p.1 = k then assocDel rest k else p :: assocDel rest k

/-- Lookup of an image by ID in the image store (`store.Store[*api.Image].Get`;
`none` models `store.ErrNotFound`). -/
def imgGet : List Image → String → Option Image
  | [], _ => none
  | i :: rest, id => if i.id = id then some i else imgGet rest id

/-- Replacement of the image with the given ID (the write part of
`store.Store[*api.Image].Update`). -/
def imgSet : List Image → Image → List Image
  | [], _ => []
  | i :: rest, img => (if i.id = img.id then img else i) :: imgSet rest img

/-- Lookup of a snapshot by ID in the snapshot store
(`store.Store[*api.Snapshot].Get`; `none` models `store.ErrNotFound`). -/
def snapGet : List Snapshot → String → Option Snapshot
  | [], _ => none
  | s :: rest, id => if s.id = id then some s else snapGet rest id

/-- The whole mutable state the reconciler acts on: the two entity stores and
the backend driver's volumes (name to size in bytes). -/
structure World where
  images : List Image
  snapshots : List Snapshot
  rbd : List (String × Nat)
  deriving DecidableEq

/-- Modelled from the spec: the Entity Store's `Update` — replaces the entity
with the given ID, and signals not-found (`none`) when no such entity exists. -/
def storeUpdateImage (w : World) (img : Image) : Option World :=
  match imgGet w.images img.id with
  | none => none
  | some _ => some { w with images := imgSet w.images img }

/-- Modelled from the spec: the Entity Store's `Create` for snapshots — keyed
by digest, and the loser of a racing duplicate creation observes an
already-exists outcome (`none`). -/
def snapCreate (w : World) (s : Snapshot) : Option (Snapshot × World) :=
  match snapGet w.snapshots s.id with
  | some _ => none
  | none => some (s, { w with snapshots := s :: w.snapshots })

/-- One store write or backend volume operation performed by the reconciler. -/
inductive Action where
  | rbdCreate (name : String) (size : Nat)
  | rbdClone (src dst : String)
  | rbdResize (name : String) (size : Nat)
  | rbdSetMetadata (name key value : String)
  | rbdRemove (name : String)
  | storeImageUpdate (img : Image)
  | storeSnapshotCreate (snap : Snapshot)
  deriving DecidableEq

/-- Backend calls that create or mutate volume state (create-volume,
clone-volume, resize-volume, set-metadata). -/
def Action.isBackendMutation : Action → Bool
  | .rbdCreate _ _ => true
  | .rbdClone _ _ => true
  | .rbdResize _ _ => true
  | .rbdSetMetadata _ _ _ => true
  | _ => false

/-- Modelled from the spec: the deduplicating, rate-limited work queue
(`k8s.io/client-go/util/workqueue`, not part of this repository): pending keys
with at most one pending instance per key, the set of in-flight keys, and the
per-key consecutive-failure counter driving the backoff. -/
structure Queue where
  pending : List String
  inFlight : List String
  failures : List (String × Nat)
  deriving DecidableEq

/-- Modelled from the spec: `Add(key)` enqueues, deduplicating pending keys. -/
def qAdd (q : Queue) (k : String) : Queue :=
  if k ∈ q.pending then q else { q with pending := q.pending ++ [k] }

/-- Backoff counter of a key (number of consecutive failures recorded). -/
def failCount (q : Queue) (k : String) : Nat :=
  (assocGet q.failures k).getD 0

/-- Modelled from the spec: `Forget(key)` resets the failure counter. -/
def qForget (q : Queue) (k : String) : Queue :=
  { q with failures := assocDel q.failures k }

/-- Modelled from the spec: `AddRateLimited(key)` bumps the failure counter
and re-enqueues the key. -/
def qAddRateLimited (q : Queue) (k : String) : Queue :=
  qAdd { q with failures := assocSet q.failures k (failCount q k + 1) } k

/-- Modelled from the spec: `Done(key)` clears the in-flight marking. -/
def qDone (q : Queue) (k : String) : Queue :=
  { q with inFlight := q.inFlight.erase k }

/-- Outcome of every external call that is not determined by the `World`:
`openOk`/`open2Ok` for the two `OpenIOContext` calls, `parse`/`resolve` for
`reference.Parse` and `registry.Resolve` (locator respectively digest),
`midInsert` for a snapshot a concurrent reconciliation creates between this
reconciler's `Get` and `Create`, and one success flag per fallible backend
primitive; `authKey` and `wwn` are the values returned by the credential
fetch and the WWN generator. -/
structure Oracle where
  openOk : Bool
  open2Ok : Bool
  parse : String → Except Unit String
  resolve : String → Except Unit String
  midInsert : Option Snapshot
  setOptionOk : Bool
  createOk : Bool
  cloneOk : Bool
  openImageOk : Bool
  resizeOk : Bool
  closeOk : Bool
  setMetadataOk : Bool
  removeOtherErr : Bool
  authOk : Bool
  authKey : String
  wwn : String

/-- Reconciler configuration carried by `ImageReconciler` (monitors, ceph
client name, pool), `ImageReconcilerOptions`. -/
structure ReconCfg where
  monitors : String
  client : String
  pool : String

/-- The image deletion finalizer, `ImageFinalizer`. -/
def ImageFinalizer : String := "image"

/-- Label key recording the digest on a created snapshot, `imageDigestLabel`. -/
def imageDigestLabel : String := "image-digest"

/-- Metadata key marker for limit entries, source constant `"conf_"`. -/
def limitMetadataPre : String := "conf_"

/-- Modelled from the spec: `round.OffBytes` (not in `src/`) rounds a byte
count up to the backend's allocation granularity. -/
def roundOffBytes (n : Nat) : Nat :=
  ((n + 4095) / 4096) * 4096

/-- Modelled from the spec: `ImageIDToRBDID` (not in `src/`) derives the
backend volume name from the Image ID. -/
def imageIDToRBDID (id : String) : String :=
  "img_" ++ id

/-- Modelled from the spec: `SnapshotIDToRBDID` (not in `src/`) derives the
backend volume name holding a snapshot's content from the Snapshot ID. -/
def snapshotIDToRBDID (id : String) : String :=
  "snap_" ++ id

/-- Embeds `deleteImage` (image_controller.go:223-241): return immediately
when the finalizer is absent; remove the backend volume treating not-found as
success; erase the finalizer and persist, ignoring a store not-found. -/
def deleteImage (o : Oracle) (w : World) (img : Image) :
    Except String Unit × World × List Action :=
  if ImageFinalizer ∈ img.finalizers then
    if o.removeOtherErr then (.error "failed to remove rbd image", w, [])
    else
      match
        match assocGet w.rbd (imageIDToRBDID img.id) with
        | some _ =>
          ({ w with rbd := assocDel w.rbd (imageIDToRBDID img.id) },
            [Action.rbdRemove (imageIDToRBDID img.id)])
        | none => (w, []) with
      | (w₁, t₁) =>
        match storeUpdateImage w₁
            { img with finalizers := img.finalizers.erase ImageFinalizer } with
        | none => (.ok (), w₁, t₁)
        | some w₂ =>
          (.ok (), w₂, t₁ ++
            [Action.storeImageUpdate
              { img with finalizers := img.finalizers.erase ImageFinalizer }])
  else (.ok (), w, [])

/-- Embeds `fetchAuth` (image_controller.go:247-269): run the mon command and
return the client name stripped of the `client.` marker plus the key. -/
def fetchAuth (o : Oracle) (c : ReconCfg) : Except String (String × String) :=
  if o.authOk then
    .ok (if c.client.startsWith "client." then c.client.drop 7 else c.client,
      o.authKey)
  else .error "failed to execute mon command"

/-- Concurrent-creator window of `reconcileSnapshot`: a racing reconciliation
may insert the snapshot between this reconciler's `Get` and `Create`. -/
def midInsertApply (o : Oracle) (w : World) : World :=
  match o.midInsert with
  | none => w
  | some s =>
    match snapGet w.snapshots s.id with
    | some _ => w
    | none => { w with snapshots := s :: w.snapshots }

/-- Trailing assignment of `reconcileSnapshot` (image_controller.go:313-316):
record the snapshot's ID on the image's `SnapshotRef` and persist. -/
def assignSnapshotRef (w : World) (img : Image) (snap : Snapshot)
    (t : List Action) : Except String Image × World × List Action :=
  match storeUpdateImage w
      { img with spec := { img.spec with snapshotRef := some snap.id } } with
  | none => (.error "failed to update image snapshot ref", w, t)
  | some w₁ =>
    (.ok { img with spec := { img.spec with snapshotRef := some snap.id } },
      w₁, t ++
        [Action.storeImageUpdate
          { img with spec := { img.spec with snapshotRef := some snap.id } }])

/-- Embeds `reconcileSnapshot` (image_controller.go:271-319): only acts when
the spec names a source image and no snapshot reference is recorded; resolves
the reference to a digest, gets or creates the snapshot keyed by that digest,
and records its ID as the image's `SnapshotRef`. -/
def reconcileSnapshot (o : Oracle) (w : World) (img : Image) :
    Except String Image × World × List Action :=
  if img.spec.image ≠ "" ∧ img.spec.snapshotRef = none then
    match o.parse img.spec.image with
    | .error _ => (.error "failed to parse image reference", w, [])
    | .ok locator =>
      match o.resolve img.spec.image with
      | .error _ => (.error "failed to resolve image ref in registry", w, [])
      | .ok snapshotDigest =>
        match snapGet w.snapshots snapshotDigest with
        | some snap => assignSnapshotRef w img snap []
        | none =>
          match snapCreate (midInsertApply o w)
              { id := snapshotDigest,
                labels := [(imageDigestLabel, snapshotDigest)],
                source := locator ++ "@" ++ snapshotDigest,
                status := { state := SnapshotState.pending } } with
          | none => (.error "failed to create snapshot", midInsertApply o w, [])
          | some (snap, w₂) =>
            assignSnapshotRef w₂ img snap [Action.storeSnapshotCreate snap]
  else (.ok img, w, [])

/-- Embeds `createEmptyImage` (image_controller.go:437-444): create a fresh
backend volume of the granularity-rounded spec size; creating over an
existing volume name is a backend error. -/
def createEmptyImage (o : Oracle) (w : World) (img : Image) :
    Except String Unit × World × List Action :=
  if o.createOk then
    match assocGet w.rbd (imageIDToRBDID img.id) with
    | some _ => (.error "failed to create rbd image", w, [])
    | none =>
      (.ok (),
        { w with rbd := (assocSet w.rbd (imageIDToRBDID img.id)
                          (roundOffBytes img.spec.size)) },
        [Action.rbdCreate (imageIDToRBDID img.id) (roundOffBytes img.spec.size)])
  else (.error "failed to create rbd image", w, [])

/-- Embeds `createImageFromSnapshot` (image_controller.go:446-492): a missing
or not-yet-populated snapshot is the not-ready outcome `(false, no error)`;
otherwise clone the snapshot's backend volume (the clone inherits the
source's size — modelled from the spec) and resize the clone to the
granularity-rounded spec size (resize-volume sets the absolute size —
modelled from the spec). -/
def createImageFromSnapshot (o : Oracle) (w : World) (img : Image)
    (snapshotRef : String) : Except String Bool × World × List Action :=
  match snapGet w.snapshots snapshotRef with
  | none => (.ok false, w, [])
  | some snapshot =>
    if snapshot.status.state ≠ SnapshotState.populated then (.ok false, w, [])
    else if o.open2Ok then
      match assocGet w.rbd (snapshotIDToRBDID snapshot.id) with
      | none => (.error "failed to clone rbd image", w, [])
      | some srcSize =>
        if o.cloneOk then
          match assocGet w.rbd (imageIDToRBDID img.id) with
          | some _ => (.error "failed to clone rbd image", w, [])
          | none =>
            if o.openImageOk then
              if o.resizeOk then
                if o.closeOk then
                  (.ok true,
                    { w with rbd := (assocSet
                        (assocSet w.rbd (imageIDToRBDID img.id) srcSize)
                        (imageIDToRBDID img.id) (roundOffBytes img.spec.size)) },
                    [Action.rbdClone (snapshotIDToRBDID snapshot.id)
                        (imageIDToRBDID img.id),
                      Action.rbdResize (imageIDToRBDID img.id)
                        (roundOffBytes img.spec.size)])
                else
                  (.error "failed to close rbd image",
                    { w with rbd := (assocSet
                        (assocSet w.rbd (imageIDToRBDID img.id) srcSize)
                        (imageIDToRBDID img.id) (roundOffBytes img.spec.size)) },
                    [Action.rbdClone (snapshotIDToRBDID snapshot.id)
                        (imageIDToRBDID img.id),
                      Action.rbdResize (imageIDToRBDID img.id)
                        (roundOffBytes img.spec.size)])
              else
                (.error "failed to resize rbd image",
                  { w with rbd := assocSet w.rbd (imageIDToRBDID img.id) srcSize },
                  [Action.rbdClone (snapshotIDToRBDID snapshot.id)
                      (imageIDToRBDID img.id)])
            else
              (.error "failed to open rbd image",
                { w with rbd := assocSet w.rbd (imageIDToRBDID img.id) srcSize },
                [Action.rbdClone (snapshotIDToRBDID snapshot.id)
                    (imageIDToRBDID img.id)])
        else (.error "failed to clone rbd image", w, [])
    else (.error "unable to get io context", w, [])

/-- Embeds `setImageLimits` (image_controller.go:414-435): open the backend
volume and set one metadata key per limit entry, marked with the `conf_`
key marker. -/
def setImageLimits (o : Oracle) (w : World) (img : Image) :
    Except String Unit × World × List Action :=
  if o.openImageOk then
    if o.setMetadataOk then
      if o.closeOk then
        (.ok (), w,
          img.spec.limits.map (fun p =>
            Action.rbdSetMetadata (imageIDToRBDID img.id)
              (limitMetadataPre ++ p.1) (toString p.2)))
      else
        (.error "failed to close rbd image", w,
          img.spec.limits.map (fun p =>
            Action.rbdSetMetadata (imageIDToRBDID img.id)
              (limitMetadataPre ++ p.1) (toString p.2)))
    else (.error "failed to set limit", w, [])
  else (.error "failed to open rbd image", w, [])

/-- Final phase of `reconcileImage` (image_controller.go:386-407): apply the
limits when any are requested, fetch credentials, assemble the access
descriptor and persist `Status = {Available, access}`. -/
def finishImage (o : Oracle) (c : ReconCfg) (w : World) (img : Image) :
    Except String Unit × World × List Action :=
  match
    (if img.spec.limits ≠ [] then setImageLimits o w img
     else (Except.ok (), w, ([] : List Action))) with
  | (.error e, w₁, t₁) => (.error ("failed to set limits: " ++ e), w₁, t₁)
  | (.ok _, w₁, t₁) =>
    match fetchAuth o c with
    | .error e => (.error ("failed to fetch credentials: " ++ e), w₁, t₁)
    | .ok (user, key) =>
      match storeUpdateImage w₁
          { img with status :=
              { state := ImageState.available,
                access := some
                  { monitors := c.monitors,
                    handle := c.pool ++ "/" ++ img.id,
                    user := user, userKey := key, wwn := o.wwn } } } with
      | none => (.error "failed to update image metadate", w₁, t₁)
      | some w₂ =>
        (.ok (), w₂, t₁ ++
          [Action.storeImageUpdate
            { img with status :=
                { state := ImageState.available,
                  access := some
                    { monitors := c.monitors,
                      handle := c.pool ++ "/" ++ img.id,
                      user := user, userKey := key, wwn := o.wwn } } }])

/-- Phases of `reconcileImage` after the finalizer is ensured
(image_controller.go:358-407): snapshot reconciliation, image option setup,
provisioning by clone or by empty creation (a not-ready clone outcome
returns success immediately), then limits, credentials and status. -/
def reconcileImageTail (o : Oracle) (c : ReconCfg) (w : World) (img : Image) :
    Except String Unit × World × List Action :=
  match reconcileSnapshot o w img with
  | (.error e, w₁, t₁) => (.error ("failed to reconcile snapshot: " ++ e), w₁, t₁)
  | (.ok img₁, w₁, t₁) =>
    if o.setOptionOk then
      match img₁.spec.snapshotRef with
      | some snapshotRef =>
        match createImageFromSnapshot o w₁ img₁ snapshotRef with
        | (.error e, w₂, t₂) =>
          (.error ("failed to create image from snapshot: " ++ e), w₂, t₁ ++ t₂)
        | (.ok false, w₂, t₂) => (.ok (), w₂, t₁ ++ t₂)
        | (.ok true, w₂, t₂) =>
          match finishImage o c w₂ img₁ with
          | (res, w₃, t₃) => (res, w₃, t₁ ++ t₂ ++ t₃)
      | none =>
        match createEmptyImage o w₁ img₁ with
        | (.error e, w₂, t₂) =>
          (.error ("failed to create empty image: " ++ e), w₂, t₁ ++ t₂)
        | (.ok _, w₂, t₂) =>
          match finishImage o c w₂ img₁ with
          | (res, w₃, t₃) => (res, w₃, t₁ ++ t₂ ++ t₃)
    else (.error "failed to set data pool", w₁, t₁)

/-- Finalizer step of `reconcileImage` (image_controller.go:351-356): append
the deletion finalizer when absent and persist before anything else. -/
def ensureFinalizer (w : World) (img : Image) :
    Except String Image × World × List Action :=
  if ImageFinalizer ∈ img.finalizers then (.ok img, w, [])
  else
    match storeUpdateImage w
        { img with finalizers := img.finalizers ++ [ImageFinalizer] } with
    | none => (.error "failed to set finalizers", w, [])
    | some w₁ =>
      (.ok { img with finalizers := img.finalizers ++ [ImageFinalizer] }, w₁,
        [Action.storeImageUpdate
          { img with finalizers := img.finalizers ++ [ImageFinalizer] }])

/-- Embeds `reconcileImage` (image_controller.go:321-412): fetch the image
(not-found is done), run the deletion path when soft-deleted, finish early
when already Available, then ensure the finalizer and run the tail phases. -/
def reconcileImage (o : Oracle) (c : ReconCfg) (w : World) (id : String) :
    Except String Unit × World × List Action :=
  if o.openOk then
    match imgGet w.images id with
    | none => (.ok (), w, [])
    | some img =>
      match img.deletedAt with
      | some _ =>
        match deleteImage o w img with
        | (.error e, w₁, t₁) => (.error ("failed to delete image: " ++ e), w₁, t₁)
        | (.ok _, w₁, t₁) => (.ok (), w₁, t₁)
      | none =>
        if img.status.state = ImageState.available then (.ok (), w, [])
        else
          match ensureFinalizer w img with
          | (.error e, w₁, t₁) => (.error e, w₁, t₁)
          | (.ok img₁, w₁, t₁) =>
            match reconcileImageTail o c w₁ img₁ with
            | (res, w₂, t₂) => (res, w₂, t₁ ++ t₂)
  else (.error "unable to get io context", w, [])

/-- Kind of an entity change notification, `event.Type`. -/
inductive EventType where
  | created
  | updated
  | deleted
  deriving DecidableEq

/-- One snapshot change notification, `event.Event[*api.Snapshot]`. -/
structure SnapEvent where
  type : EventType
  object : Snapshot

/-- Embeds the snapshot-event handler registered in `Start`
(image_controller.go:155-171): only an Updated event whose object is
Populated enqueues anything, and then every image whose `SnapshotRef` equals
the snapshot's ID is added to the queue. -/
def snapshotEventEnqueue (images : List Image) (evt : SnapEvent) (q : Queue) :
    Queue :=
  if evt.type ≠ EventType.updated ∨
      evt.object.status.state ≠ SnapshotState.populated then q
  else
    (images.filter (fun i => i.spec.snapshotRef = some evt.object.id)).foldl
      (fun acc i => qAdd acc i.id) q

/-- Embeds `processNextWorkItem` (image_controller.go:198-217): pop a key and
mark it in flight, reconcile, requeue rate-limited on error or forget on
success, and clear the in-flight marking last (the deferred `Done`). -/
def processNextWorkItem (o : Oracle) (c : ReconCfg) (w : World) (q : Queue) :
    Bool × World × Queue × List Action :=
  match q.pending with
  | [] => (false, w, q, [])
  | item :: rest =>
    match reconcileImage o c w item with
    | (.error _, w₁, t₁) =>
      (true, w₁,
        qDone (qAddRateLimited
          { q with pending := rest, inFlight := item :: q.inFlight } item) item,
        t₁)
    | (.ok _, w₁, t₁) =>
      (true, w₁,
        qDone (qForget
          { q with pending := rest, inFlight := item :: q.inFlight } item) item,
        t₁)

/-- The not-ready condition of the clone step: the snapshot is absent from
the store, or present but not Populated. -/
def snapshotNotReady (w : World) (sref : String) : Bool :=
  match snapGet w.snapshots sref with
  | none => true
  | some s => decide (s.status.state ≠ SnapshotState.populated)

/-- The image with the deletion finalizer appended, as built by the
finalizer step. -/
def withFin (img : Image) : Image :=
  { img with finalizers := img.finalizers ++ [ImageFinalizer] }

/-- The world with the image of the given ID replaced. -/
def worldSet (w : World) (i : Image) : World :=
  { w with images := imgSet w.images i }

/-- Oracle where every external call succeeds, resolving any reference to
locator `repo/base` and digest `d1`. -/
def oracleAllOk : Oracle :=
  { openOk := true, open2Ok := true,
    parse := fun _ => Except.ok "repo/base",
    resolve := fun _ => Except.ok "d1",
    midInsert := none, setOptionOk := true, createOk := true, cloneOk := true,
    openImageOk := true, resizeOk := true, closeOk := true,
    setMetadataOk := true, removeOtherErr := false,
    authOk := true, authKey := "KEY", wwn := "WWN" }

/-- Snapshot of digest `d1` created by a concurrent reconciliation. -/
def snapRaced : Snapshot :=
  { id := "d1", labels := [("image-digest", "d1")], source := "repo/base@d1",
    status := { state := SnapshotState.pending } }

/-- Oracle where a concurrent reconciliation creates snapshot `d1` between
this reconciler's `Get` and `Create`. -/
def oracleRace : Oracle :=
  { oracleAllOk with midInsert := some snapRaced }

/-- A concrete reconciler configuration. -/
def cfg0 : ReconCfg :=
  { monitors := "m", client := "client.c", pool := "p" }

/-- A pending image `i` whose snapshot reference `d1` is already recorded. -/
def imgRef : Image :=
  { id := "i", labels := [], finalizers := ["image"], deletedAt := none,
    spec := { image := "repo/base:tag", snapshotRef := some "d1", size := 4096,
              limits := [] },
    status := { state := ImageState.pending, access := none } }

/-- A world holding only `imgRef`: snapshot `d1` does not exist yet. -/
def worldRef : World :=
  { images := [imgRef], snapshots := [], rbd := [] }

/-- A populated snapshot entity for digest `d1`. -/
def snapPop : Snapshot :=
  { id := "d1", labels := [("image-digest", "d1")], source := "repo/base@d1",
    status := { state := SnapshotState.populated } }

/-- A world where snapshot `d1` is Populated and its backend volume holds
8192 bytes, while `imgRef` requests only 4096. -/
def worldClone : World :=
  { images := [imgRef], snapshots := [snapPop], rbd := [("snap_d1", 8192)] }

/-- The image `i` before its snapshot reference is resolved. -/
def imgSrc : Image :=
  { imgRef with
    spec := { image := "repo/base:tag", snapshotRef := none, size := 4096,
              limits := [] } }

/-- A world holding only the unresolved `imgSrc`. -/
def worldSrc : World :=
  { images := [imgSrc], snapshots := [], rbd := [] }

/-- The image `i` once converged on snapshot `d1`. -/
def imgSrcConverged : Image :=
  { imgSrc with
    spec := { imgSrc.spec with snapshotRef := some "d1" } }

/-- An already-available image `a`. -/
def imgAvail : Image :=
  { id := "a", labels := [], finalizers := ["image"], deletedAt := none,
    spec := { image := "", snapshotRef := none, size := 4096, limits := [] },
    status := { state := ImageState.available,
                access := some { monitors := "m", handle := "p/a", user := "c",
                                 userKey := "KEY", wwn := "WWN" } } }

/-- A world holding only the available image `a`. -/
def worldAvail : World :=
  { images := [imgAvail], snapshots := [], rbd := [("img_a", 4096)] }

/-- A soft-deleted image `z` still carrying the finalizer. -/
def imgDel : Image :=
  { id := "z", labels := [], finalizers := ["image"], deletedAt := some 1,
    spec := { image := "", snapshotRef := none, size := 4096, limits := [] },
    status := { state := ImageState.pending, access := none } }

/-- A world holding `imgDel` and no backend volume for it. -/
def worldDel : World :=
  { images := [imgDel], snapshots := [], rbd := [] }

/-- A queue with image `i` pending and nothing else. -/
def qPending : Queue :=
  { pending := ["i"], inFlight := [], failures := [] }

/-- The Updated event announcing that snapshot `d1` became Populated. -/
def evtPop : SnapEvent :=
  { type := EventType.updated, object := snapPop }

/-- Looking a key up after deleting it yields nothing. -/
theorem assocGet_assocDel {α : Type} (l : List (String × α)) (k : String) :
    assocGet (assocDel l k) k = none := by
  induction l with
  | nil => rfl
  | cons p rest ih =>
    by_cases h : p.1 = k <;> simp [assocDel, assocGet, h, ih]

/-- Looking a key up after setting it yields the set value. -/
theorem assocGet_assocSet {α : Type} (l : List (String × α)) (k : String)
    (v : α) : assocGet (assocSet l k v) k = some v := by
  induction l with
  | nil => simp [assocSet, assocGet]
  | cons p rest ih =>
    by_cases h : p.1 = k <;> simp [assocSet, assocGet, h, ih]

/-- An image found in the store carries the ID it was found under. -/
theorem imgGet_eq_id (l : List Image) (k : String) (i : Image)
    (h : imgGet l k = some i) : i.id = k := by
  induction l with
  | nil => simp [imgGet] at h
  | cons x rest ih =>
    by_cases hx : x.id = k
    · simp [imgGet, hx] at h
      rw [← h]
      exact hx
    · simp [imgGet, hx] at h
      exact ih h

/-- After replacing the entity with ID `i₀.id`, looking that ID up yields the
replacement, provided some entity with that ID was stored. -/
theorem imgGet_imgSet_self (l : List Image) (i₀ j : Image)
    (h : imgGet l i₀.id = some j) :
    imgGet (imgSet l i₀) i₀.id = some i₀ := by
  induction l with
  | nil => simp [imgGet] at h
  | cons x rest ih =>
    by_cases hx : x.id = i₀.id
    · simp [imgSet, imgGet, hx]
    · simp [imgGet, hx] at h
      simp [imgSet, imgGet, hx]
      exact ih h

/-- Every lookup in a replaced store yields either the replacement or an
image that was already stored under that key. -/
theorem imgGet_imgSet_cases (l : List Image) (i₀ : Image) (k : String)
    (j : Image) (h : imgGet (imgSet l i₀) k = some j) :
    j = i₀ ∨ imgGet l k = some j := by
  induction l with
  | nil => simp [imgSet, imgGet] at h
  | cons x rest ih =>
    by_cases hx : x.id = i₀.id
    · by_cases hk : i₀.id = k
      · simp [imgSet, imgGet, hx, hk] at h
        exact Or.inl h.symm
      · simp [imgSet, imgGet, hx, hk] at h
        rcases ih h with hj | hj
        · exact Or.inl hj
        · right
          rw [imgGet]
          rw [hx]
          simp [hk, hj]
    · by_cases hk : x.id = k
      · have hki : ¬ k = i₀.id := by rw [← hk]; exact hx
        simp [imgSet, imgGet, hx, hk, hki] at h
        right
        rw [imgGet]
        subst h
        simp [hk]
      · simp [imgSet, imgGet, hx, hk] at h
        rcases ih h with hj | hj
        · exact Or.inl hj
        · right
          rw [imgGet]
          simp [hk, hj]

/-- A successful image update only rewrites the image list. -/
theorem storeUpdateImage_eq (w : World) (img : Image) (w' : World)
    (h : storeUpdateImage w img = some w') :
    w' = { w with images := imgSet w.images img } := by
  unfold storeUpdateImage at h
  cases hg : imgGet w.images img.id with
  | none => rw [hg] at h; simp at h
  | some i₀ => rw [hg] at h; simpa using h.symm

/-- The clone step never touches the entity stores: only the backend volume
map of the world can change. -/
theorem createImageFromSnapshot_stores (o : Oracle) (w : World) (img : Image)
    (r : String) :
    ((createImageFromSnapshot o w img r).2.1).images = w.images ∧
    ((createImageFromSnapshot o w img r).2.1).snapshots = w.snapshots := by
  unfold createImageFromSnapshot
  (repeat' split) <;> simp

/-- The empty-creation step never touches the entity stores. -/
theorem createEmptyImage_stores (o : Oracle) (w : World) (img : Image) :
    ((createEmptyImage o w img).2.1).images = w.images ∧
    ((createEmptyImage o w img).2.1).snapshots = w.snapshots := by
  unfold createEmptyImage
  (repeat' split) <;> simp

/-- Setting limits leaves the world untouched (metadata is traced only). -/
theorem setImageLimits_world (o : Oracle) (w : World) (img : Image) :
    (setImageLimits o w img).2.1 = w := by
  unfold setImageLimits
  (repeat' split) <;> simp

/-- A recorded snapshot reference makes `reconcileSnapshot` a no-op. -/
theorem reconcileSnapshot_of_ref_some (o : Oracle) (w : World) (img : Image)
    (s : String) (h : img.spec.snapshotRef = some s) :
    reconcileSnapshot o w img = (.ok img, w, []) := by
  simp [reconcileSnapshot, h]

/-- Enqueuing never touches the in-flight set. -/
theorem qAdd_inFlight (q : Queue) (k : String) :
    (qAdd q k).inFlight = q.inFlight := by
  unfold qAdd
  split <;> rfl

/-- Enqueuing never touches the failure counters. -/
theorem qAdd_failures (q : Queue) (k : String) :
    (qAdd q k).failures = q.failures := by
  unfold qAdd
  split <;> rfl

/-- Membership in the pending list after an enqueue. -/
theorem mem_qAdd_pending (q : Queue) (k k' : String) :
    k' ∈ (qAdd q k).pending ↔ k' ∈ q.pending ∨ k' = k := by
  unfold qAdd
  split
  · constructor
    · exact Or.inl
    · rintro (h | rfl)
      · exact h
      · assumption
  · simp [or_comm]

/-- Pending membership after enqueuing the IDs of a whole image list. -/
theorem mem_foldl_qAdd_pending (l : List Image) (q : Queue) (k : String) :
    k ∈ (l.foldl (fun acc i => qAdd acc i.id) q).pending ↔
      k ∈ q.pending ∨ ∃ i ∈ l, i.id = k := by
  induction l generalizing q with
  | nil => simp
  | cons x rest ih =>
    rw [List.foldl_cons, ih]
    rw [mem_qAdd_pending]
    constructor
    · rintro ((h | rfl) | ⟨i, hi, rfl⟩)
      · exact Or.inl h
      · exact Or.inr ⟨x, by simp⟩
      · exact Or.inr ⟨i, by simp [hi]⟩
    · rintro (h | ⟨i, hi, rfl⟩)
      · exact Or.inl (Or.inl h)
      · rcases List.mem_cons.mp hi with rfl | hi
        · exact Or.inl (Or.inr rfl)
        · exact Or.inr ⟨i, hi, rfl⟩

/-- C4: reconciling an image that is already Available (and not deleted)
is a success no-op: the world is unchanged and neither a backend volume
call nor an entity-store write happens. -/
theorem C4_available_noop (o : Oracle) (c : ReconCfg) (w : World) (id : String)
    (img : Image) (ho : o.openOk = true) (hg : imgGet w.images id = some img)
    (hd : img.deletedAt = none)
    (ha : img.status.state = ImageState.available) :
    reconcileImage o c w id = (.ok (), w, []) := by
  simp [reconcileImage, ho, hg, hd, ha]

/-- Witness: running `C4_available_noop` on the concrete available image. -/
theorem C4_available_noop_witness :
    oracleAllOk.openOk = true ∧
    imgGet worldAvail.images "a" = some imgAvail ∧
    imgAvail.deletedAt = none ∧
    imgAvail.status.state = ImageState.available ∧
    reconcileImage oracleAllOk cfg0 worldAvail "a" = (.ok (), worldAvail, []) :=
  ⟨rfl, by decide, rfl, rfl,
    C4_available_noop oracleAllOk cfg0 worldAvail "a" imgAvail rfl (by decide)
      rfl rfl⟩

/-- C9: one pass of `processNextWorkItem` always clears the popped item's
in-flight marking again (the deferred `Done` runs on success and on error
alike), and the worker reports that processing can continue. -/
theorem C9_done_always (o : Oracle) (c : ReconCfg) (w : World) (q : Queue)
    (item : String) (rest : List String) (hq : q.pending = item :: rest) :
    ((processNextWorkItem o c w q).2.2.1).inFlight = q.inFlight ∧
    (processNextWorkItem o c w q).1 = true := by
  rcases hrun : reconcileImage o c w item with ⟨res, w₁, t₁⟩
  cases res with
  | error e =>
    simp [processNextWorkItem, hq, hrun, qDone, qAddRateLimited, qAdd_inFlight,
      List.erase_cons_head]
  | ok u =>
    simp [processNextWorkItem, hq, hrun, qDone, qForget, List.erase_cons_head]

/-- Witness: running `C9_done_always` on the concrete one-item queue. -/
theorem C9_done_always_witness :
    qPending.pending = "i" :: [] ∧
    ((processNextWorkItem oracleAllOk cfg0 worldRef qPending).2.2.1).inFlight =
      qPending.inFlight ∧
    (processNextWorkItem oracleAllOk cfg0 worldRef qPending).1 = true :=
  ⟨rfl, C9_done_always oracleAllOk cfg0 worldRef qPending "i" [] rfl⟩

/-- C8: the snapshot-event handler enqueues exactly the dependent images on
a Populated transition — on an Updated event for a Populated snapshot, a key
is pending afterwards iff it was pending before or is the ID of a stored
image whose `SnapshotRef` equals the snapshot's ID; every other event type
or state leaves the queue untouched. -/
theorem C8_handler_exact (images : List Image) (evt : SnapEvent) (q : Queue) :
    ((evt.type = EventType.updated ∧
        evt.object.status.state = SnapshotState.populated) →
      ∀ k, k ∈ (snapshotEventEnqueue images evt q).pending ↔
        (k ∈ q.pending ∨
          ∃ i ∈ images, i.spec.snapshotRef = some evt.object.id ∧ i.id = k)) ∧
    ((evt.type ≠ EventType.updated ∨
        evt.object.status.state ≠ SnapshotState.populated) →
      snapshotEventEnqueue images evt q = q) := by
  constructor
  · rintro ⟨ht, hs⟩ k
    rw [snapshotEventEnqueue, if_neg (by simp [ht, hs])]
    rw [mem_foldl_qAdd_pending]
    constructor
    · rintro (h | ⟨i, hi, rfl⟩)
      · exact Or.inl h
      · rcases List.mem_filter.mp hi with ⟨hmem, hp⟩
        exact Or.inr ⟨i, hmem, by simpa using hp, rfl⟩
    · rintro (h | ⟨i, hi, hp, rfl⟩)
      · exact Or.inl h
      · exact Or.inr ⟨i, List.mem_filter.mpr ⟨hi, by simpa using hp⟩, rfl⟩
  · intro h
    rw [snapshotEventEnqueue, if_pos h]

/-- Witness: running `C8_handler_exact` on the Populated-transition event
for snapshot `d1` with `imgRef` depending on it. -/
theorem C8_handler_exact_witness :
    (evtPop.type = EventType.updated ∧
      evtPop.object.status.state = SnapshotState.populated) ∧
    ("i" ∈ (snapshotEventEnqueue [imgRef] evtPop qPending).pending ↔
      ("i" ∈ qPending.pending ∨
        ∃ i ∈ [imgRef], i.spec.snapshotRef = some evtPop.object.id ∧
          i.id = "i")) :=
  ⟨⟨rfl, rfl⟩, (C8_handler_exact [imgRef] evtPop qPending).1 ⟨rfl, rfl⟩ "i"⟩

/-- The deletion path keeps the snapshot store intact, and any image it
leaves in the store either was already stored or is the processed image with
its spec and status untouched. -/
theorem deleteImage_frame (o : Oracle) (w : World) (img : Image) :
    ((deleteImage o w img).2.1).snapshots = w.snapshots ∧
    (∀ k i', imgGet ((deleteImage o w img).2.1).images k = some i' →
      imgGet w.images k = some i' ∨
        (i'.spec = img.spec ∧ i'.status = img.status)) := by
  unfold deleteImage
  by_cases hf : ImageFinalizer ∈ img.finalizers
  · rw [if_pos hf]
    by_cases hr : o.removeOtherErr
    · rw [if_pos hr]
      exact ⟨rfl, fun k i' h => Or.inl h⟩
    · rw [if_neg hr]
      cases hrb : assocGet w.rbd (imageIDToRBDID img.id) with
      | some sz =>
        cases hup : storeUpdateImage
            { w with rbd := assocDel w.rbd (imageIDToRBDID img.id) }
            { img with finalizers := img.finalizers.erase ImageFinalizer } with
        | none =>
          refine ⟨by simp [hup], ?_⟩
          intro k i' hi
          simp only [hup] at hi
          exact Or.inl hi
        | some w₂ =>
          have hw₂ := storeUpdateImage_eq _ _ _ hup
          subst hw₂
          refine ⟨by simp [hup], ?_⟩
          intro k i' hi
          simp only [hup] at hi
          rcases imgGet_imgSet_cases _ _ _ _ hi with rfl | hold
          · exact Or.inr ⟨rfl, rfl⟩
          · exact Or.inl hold
      | none =>
        cases hup : storeUpdateImage w
            { img with finalizers := img.finalizers.erase ImageFinalizer } with
        | none =>
          refine ⟨by simp [hup], ?_⟩
          intro k i' hi
          simp only [hup] at hi
          exact Or.inl hi
        | some w₂ =>
          have hw₂ := storeUpdateImage_eq _ _ _ hup
          subst hw₂
          refine ⟨by simp [hup], ?_⟩
          intro k i' hi
          simp only [hup] at hi
          rcases imgGet_imgSet_cases _ _ _ _ hi with rfl | hold
          · exact Or.inr ⟨rfl, rfl⟩
          · exact Or.inl hold
  · rw [if_neg hf]
    exact ⟨rfl, fun k i' h => Or.inl h⟩

/-- C10: the deletion path only ever rewrites the image's finalizer list —
the spec (snapshot reference, size, limits) and the status (state, access)
of the processed image are unchanged whatever the outcome, and the snapshot
store is untouched. -/
theorem C10_delete_frame (o : Oracle) (w : World) (img : Image)
    (hg : imgGet w.images img.id = some img) :
    (∀ i', imgGet ((deleteImage o w img).2.1).images img.id = some i' →
      i'.spec = img.spec ∧ i'.status = img.status) ∧
    ((deleteImage o w img).2.1).snapshots = w.snapshots := by
  obtain ⟨hsnap, hframe⟩ := deleteImage_frame o w img
  refine ⟨?_, hsnap⟩
  intro i' hi
  rcases hframe img.id i' hi with hold | hkeep
  · rw [hg] at hold
    injection hold with h
    rw [← h]
    exact ⟨rfl, rfl⟩
  · exact hkeep

/-- Witness: running `C10_delete_frame` on the concrete soft-deleted image. -/
theorem C10_delete_frame_witness :
    imgGet worldDel.images imgDel.id = some imgDel ∧
    ((deleteImage oracleAllOk worldDel imgDel).2.1).snapshots =
      worldDel.snapshots :=
  ⟨by decide,
    (C10_delete_frame oracleAllOk worldDel imgDel (by decide)).2⟩

/-- C5: the deletion path is idempotent — without the finalizer it returns
at once with no backend call and no store write; with the finalizer, a
missing backend volume or a missing store entity are both treated as
success; and running it a second time, after the volume and the finalizer
are gone, succeeds as the immediate no-op. -/
theorem C5_delete_idempotent (o : Oracle) (w : World) (img : Image)
    (hr : o.removeOtherErr = false) :
    (ImageFinalizer ∉ img.finalizers →
      deleteImage o w img = (.ok (), w, [])) ∧
    (ImageFinalizer ∈ img.finalizers →
      assocGet w.rbd (imageIDToRBDID img.id) = none →
      (deleteImage o w img).1 = .ok ()) ∧
    (ImageFinalizer ∈ img.finalizers →
      imgGet w.images img.id = none →
      (deleteImage o w img).1 = .ok ()) ∧
    (ImageFinalizer ∉ img.finalizers.erase ImageFinalizer →
      deleteImage o ((deleteImage o w img).2.1)
          { img with finalizers := img.finalizers.erase ImageFinalizer } =
        (.ok (), (deleteImage o w img).2.1, [])) := by
  refine ⟨?_, ?_, ?_, ?_⟩
  · intro hf
    simp [deleteImage, hf]
  · intro hf hvol
    rw [deleteImage, if_pos hf, if_neg (by simp [hr]), hvol]
    cases hup : storeUpdateImage w
        { img with finalizers := img.finalizers.erase ImageFinalizer } with
    | none => simp [hup]
    | some w₂ => simp [hup]
  · intro hf hmiss
    rw [deleteImage, if_pos hf, if_neg (by simp [hr])]
    cases hrb : assocGet w.rbd (imageIDToRBDID img.id) with
    | some sz =>
      have hup : storeUpdateImage
          { w with rbd := assocDel w.rbd (imageIDToRBDID img.id) }
          { img with finalizers := img.finalizers.erase ImageFinalizer } =
          none := by
        unfold storeUpdateImage
        simp [hmiss]
      simp [hup]
    | none =>
      have hup : storeUpdateImage w
          { img with finalizers := img.finalizers.erase ImageFinalizer } =
          none := by
        unfold storeUpdateImage
        simp [hmiss]
      simp [hup]
  · intro hgone
    simp [deleteImage, hgone]

/-- Witness: running `C5_delete_idempotent` on the concrete soft-deleted
image with no backend volume; the second invocation clause fires since the
finalizer list holds one entry. -/
theorem C5_delete_idempotent_witness :
    oracleAllOk.removeOtherErr = false ∧
    (ImageFinalizer ∈ imgDel.finalizers →
      assocGet worldDel.rbd (imageIDToRBDID imgDel.id) = none →
      (deleteImage oracleAllOk worldDel imgDel).1 = .ok ()) :=
  ⟨rfl, (C5_delete_idempotent oracleAllOk worldDel imgDel rfl).2.1⟩

/-- Rounding to the allocation granularity never shrinks below the request. -/
theorem roundOffBytes_ge (n : Nat) : n ≤ roundOffBytes n := by
  unfold roundOffBytes
  omega

/-- C7 counterexample: cloning from the Populated snapshot `d1`, whose
backend volume holds 8192 bytes, for an image whose spec requests 4096
bytes, succeeds but leaves the cloned volume at 4096 bytes — less than the
snapshot's original size, so the resulting size is not at least both bounds
as the claim states. -/
theorem C7_resize_counterexample :
    (createImageFromSnapshot oracleAllOk worldClone imgRef "d1").1 =
      .ok true ∧
    assocGet ((createImageFromSnapshot oracleAllOk worldClone imgRef
        "d1").2.1).rbd (imageIDToRBDID imgRef.id) = some 4096 ∧
    assocGet worldClone.rbd (snapshotIDToRBDID "d1") = some 8192 ∧
    ¬ (4096 : Nat) ≥ 8192 :=
  ⟨rfl, rfl, rfl, by omega⟩

/-- C7 amended: a successful clone step sets the cloned volume to exactly
the granularity-rounded spec size — hence at least the rounded spec size
(and at least the requested bytes), but not necessarily at least the
snapshot's original size. -/
theorem C7_resize_to_spec (o : Oracle) (w : World) (img : Image)
    (sref : String) (snap : Snapshot) (srcSize : Nat)
    (hs : snapGet w.snapshots sref = some snap)
    (hpop : snap.status.state = SnapshotState.populated)
    (hsrc : assocGet w.rbd (snapshotIDToRBDID snap.id) = some srcSize)
    (hdst : assocGet w.rbd (imageIDToRBDID img.id) = none)
    (ho2 : o.open2Ok = true) (hcl : o.cloneOk = true)
    (hoi : o.openImageOk = true) (hrz : o.resizeOk = true)
    (hco : o.closeOk = true) :
    (createImageFromSnapshot o w img sref).1 = .ok true ∧
    assocGet ((createImageFromSnapshot o w img sref).2.1).rbd
        (imageIDToRBDID img.id) = some (roundOffBytes img.spec.size) ∧
    img.spec.size ≤ roundOffBytes img.spec.size := by
  refine ⟨?_, ?_, roundOffBytes_ge _⟩ <;>
    simp [createImageFromSnapshot, hs, hpop, ho2, hsrc, hcl, hdst, hoi, hrz,
      hco, assocGet_assocSet]

/-- Witness: running `C7_resize_to_spec` on the concrete clone scenario. -/
theorem C7_resize_to_spec_witness :
    snapGet worldClone.snapshots "d1" = some snapPop ∧
    (createImageFromSnapshot oracleAllOk worldClone imgRef "d1").1 =
      .ok true :=
  ⟨by decide,
    (C7_resize_to_spec oracleAllOk worldClone imgRef "d1" snapPop 8192
      (by decide) rfl (by decide) (by decide) rfl rfl rfl rfl rfl).1⟩

/-- C2: the code fails the losing reconciliation of a snapshot-creation
race — with snapshot `d1` absent at `Get` time but created concurrently
before `Create`, `reconcileSnapshot` propagates the already-exists outcome
as the error `failed to create snapshot` instead of converging; both racers
do converge on the single entity `d1` only after the loser is retried. -/
theorem C2_duplicate_create_fails :
    (reconcileSnapshot oracleRace worldSrc imgSrc).1 =
      Except.error "failed to create snapshot" ∧
    ((reconcileSnapshot oracleRace worldSrc imgSrc).2.1).snapshots =
      [snapRaced] ∧
    (reconcileSnapshot oracleRace
        ((reconcileSnapshot oracleRace worldSrc imgSrc).2.1) imgSrc).1 =
      Except.ok imgSrcConverged ∧
    imgSrcConverged.spec.snapshotRef = some "d1" :=
  ⟨rfl, rfl, rfl, rfl⟩

/-- A snapshot that is absent or not Populated makes the clone step return
the not-ready outcome: no error, no world change, no action. -/
theorem createImageFromSnapshot_notReady (o : Oracle) (w : World)
    (img : Image) (sref : String) (hnr : snapshotNotReady w sref = true) :
    createImageFromSnapshot o w img sref = (.ok false, w, []) := by
  unfold snapshotNotReady at hnr
  cases hsg : snapGet w.snapshots sref with
  | none => simp [createImageFromSnapshot, hsg]
  | some s =>
    rw [hsg] at hnr
    simp at hnr
    simp [createImageFromSnapshot, hsg, hnr]

/-- C1: when the referenced snapshot is missing or not yet Populated, the
clone step returns not-ready without error, the whole reconciliation
succeeds leaving the stored image's status untouched (never Available), no
backend volume mutation is traced, and the worker forgets the key so its
backoff counter ends at zero. -/
theorem C1_not_ready_no_backoff (o : Oracle) (c : ReconCfg) (w : World)
    (id : String) (img : Image) (sref : String)
    (ho : o.openOk = true) (hso : o.setOptionOk = true)
    (hg : imgGet w.images id = some img)
    (hd : img.deletedAt = none)
    (hna : img.status.state ≠ ImageState.available)
    (href : img.spec.snapshotRef = some sref)
    (hnr : snapshotNotReady w sref = true) :
    createImageFromSnapshot o w img sref = (.ok false, w, []) ∧
    (reconcileImage o c w id).1 = .ok () ∧
    (∀ i', imgGet ((reconcileImage o c w id).2.1).images id = some i' →
      i'.status = img.status) ∧
    (∀ a ∈ (reconcileImage o c w id).2.2, a.isBackendMutation = false) ∧
    (∀ q rest, q.pending = id :: rest →
      failCount ((processNextWorkItem o c w q).2.2.1) id = 0) := by
  have hcifs := createImageFromSnapshot_notReady o w img sref hnr
  have himgid := imgGet_eq_id _ _ _ hg
  by_cases hf : ImageFinalizer ∈ img.finalizers
  · have hrun : reconcileImage o c w id = (.ok (), w, []) := by
      simp [reconcileImage, ho, hg, hd, hna, ensureFinalizer, hf,
        reconcileImageTail, reconcileSnapshot_of_ref_some o w img sref href,
        hso, href, hcifs]
    refine ⟨hcifs, by rw [hrun], ?_, ?_, ?_⟩
    · intro i' hi
      rw [hrun] at hi
      rw [hg] at hi
      injection hi with h
      rw [← h]
    · intro a ha
      rw [hrun] at ha
      simp at ha
    · intro q rest hq
      simp [processNextWorkItem, hq, hrun, qDone, qForget, failCount,
        assocGet_assocDel]
  · have hg' : imgGet w.images img.id = some img := by
      rw [himgid]; exact hg
    have hef : ensureFinalizer w img =
        (.ok (withFin img), worldSet w (withFin img),
          [Action.storeImageUpdate (withFin img)]) := by
      simp [ensureFinalizer, hf, storeUpdateImage, hg', withFin, worldSet]
    have hnr₁ : snapshotNotReady (worldSet w (withFin img)) sref = true := hnr
    have hcifs₁ := createImageFromSnapshot_notReady o
      (worldSet w (withFin img)) (withFin img) sref hnr₁
    have href₁ : (withFin img).spec.snapshotRef = some sref := href
    have hrun : reconcileImage o c w id =
        (.ok (), worldSet w (withFin img),
          [Action.storeImageUpdate (withFin img)]) := by
      simp [reconcileImage, ho, hg, hd, hna, hef, reconcileImageTail,
        reconcileSnapshot_of_ref_some o (worldSet w (withFin img))
          (withFin img) sref href₁,
        hso, href₁, hcifs₁]
    refine ⟨hcifs, by rw [hrun], ?_, ?_, ?_⟩
    · intro i' hi
      rw [hrun] at hi
      simp only [worldSet] at hi
      rcases imgGet_imgSet_cases _ _ _ _ hi with rfl | hold
      · rfl
      · rw [hg] at hold
        injection hold with h
        rw [← h]
    · intro a ha
      rw [hrun] at ha
      simp at ha
      rw [ha]
      rfl
    · intro q rest hq
      simp [processNextWorkItem, hq, hrun, qDone, qForget, failCount,
        assocGet_assocDel]

/-- Witness: running `C1_not_ready_no_backoff` on `worldRef`, where image
`i` references snapshot `d1` that does not exist yet. -/
theorem C1_not_ready_no_backoff_witness :
    snapshotNotReady worldRef "d1" = true ∧
    createImageFromSnapshot oracleAllOk worldRef imgRef "d1" =
      (.ok false, worldRef, []) ∧
    (reconcileImage oracleAllOk cfg0 worldRef "i").1 = .ok () :=
  ⟨rfl,
    (C1_not_ready_no_backoff oracleAllOk cfg0 worldRef "i" imgRef "d1" rfl rfl
      (by decide) rfl (by decide) rfl rfl).1,
    (C1_not_ready_no_backoff oracleAllOk cfg0 worldRef "i" imgRef "d1" rfl rfl
      (by decide) rfl (by decide) rfl rfl).2.1⟩

/-- C3: on a live, not-yet-available image, any backend volume mutation in
the reconciliation trace is preceded by the finalizer — either the image
already carried it, or a successful store write of the finalizer-bearing
image appears strictly earlier in the trace. -/
theorem C3_finalizer_before_mutation (o : Oracle) (c : ReconCfg) (w : World)
    (id : String) (img : Image)
    (hg : imgGet w.images id = some img) (hd : img.deletedAt = none)
    (hna : img.status.state ≠ ImageState.available) :
    ∀ t₁ a t₂, (reconcileImage o c w id).2.2 = t₁ ++ a :: t₂ →
      a.isBackendMutation = true →
      ImageFinalizer ∈ img.finalizers ∨
      ∃ i', Action.storeImageUpdate i' ∈ t₁ ∧
        ImageFinalizer ∈ i'.finalizers := by
  by_cases hf : ImageFinalizer ∈ img.finalizers
  · intro t₁ a t₂ _ _
    exact Or.inl hf
  · by_cases ho : o.openOk
    · have himgid := imgGet_eq_id _ _ _ hg
      have hg' : imgGet w.images img.id = some img := by
        rw [himgid]; exact hg
      have hef : ensureFinalizer w img =
          (.ok (withFin img), worldSet w (withFin img),
            [Action.storeImageUpdate (withFin img)]) := by
        simp [ensureFinalizer, hf, storeUpdateImage, hg', withFin, worldSet]
      rcases htail : reconcileImageTail o c (worldSet w (withFin img))
          (withFin img) with ⟨res₂, w₂, ttail⟩
      have htr : (reconcileImage o c w id).2.2 =
          Action.storeImageUpdate (withFin img) :: ttail := by
        simp [reconcileImage, ho, hg, hd, hna, hef, htail]
      intro t₁ a t₂ hdec hmut
      rw [htr] at hdec
      cases t₁ with
      | nil =>
        simp only [List.nil_append] at hdec
        have ha : a = Action.storeImageUpdate (withFin img) :=
          (List.cons.injEq _ _ _ _ ▸ hdec).1.symm
        rw [ha] at hmut
        simp [Action.isBackendMutation] at hmut
      | cons u us =>
        rw [List.cons_append] at hdec
        have hu : u = Action.storeImageUpdate (withFin img) :=
          ((List.cons.injEq _ _ _ _ ▸ hdec).1).symm
        right
        refine ⟨withFin img, ?_, ?_⟩
        · rw [hu]
          exact List.mem_cons_self _ _
        · simp [withFin, ImageFinalizer]
    · intro t₁ a t₂ hdec _
      have h0 : (reconcileImage o c w id).2.2 = [] := by
        simp [reconcileImage, ho]
      rw [h0] at hdec
      exact absurd hdec.symm (by simp)

/-- Witness: running `C3_finalizer_before_mutation` on the concrete clone
scenario, whose trace holds a clone and a resize mutation. -/
theorem C3_finalizer_before_mutation_witness :
    imgGet worldClone.images "i" = some imgRef ∧
    imgRef.deletedAt = none ∧
    imgRef.status.state ≠ ImageState.available ∧
    ((reconcileImage oracleAllOk cfg0 worldClone "i").2.2 =
        [] ++ Action.rbdClone "snap_d1" "img_i" :: [] →
      (Action.rbdClone "snap_d1" "img_i").isBackendMutation = true →
      ImageFinalizer ∈ imgRef.finalizers ∨
      ∃ i', Action.storeImageUpdate i' ∈ ([] : List Action) ∧
        ImageFinalizer ∈ i'.finalizers) :=
  ⟨by decide, rfl, by decide,
    C3_finalizer_before_mutation oracleAllOk cfg0 worldClone "i" imgRef
      (by decide) rfl (by decide) [] (Action.rbdClone "snap_d1" "img_i") []⟩

/-- The finishing phase can only write the processed image back with its
spec unchanged: a recorded snapshot reference survives it, and the snapshot
store is untouched. -/
theorem finishImage_ref (o : Oracle) (c : ReconCfg) (w : World) (img : Image)
    (id s : String)
    (href : img.spec.snapshotRef = some s)
    (hw : ∀ i', imgGet w.images id = some i' →
      i'.spec.snapshotRef = some s) :
    (∀ i', imgGet ((finishImage o c w img).2.1).images id = some i' →
      i'.spec.snapshotRef = some s) ∧
    ((finishImage o c w img).2.1).snapshots = w.snapshots := by
  have hupd : ∀ (st : ImageStatus) (w₂ : World),
      storeUpdateImage w { img with status := st } = some w₂ →
      (∀ i', imgGet w₂.images id = some i' →
        i'.spec.snapshotRef = some s) ∧ w₂.snapshots = w.snapshots := by
    intro st w₂ hup
    have hw₂ := storeUpdateImage_eq _ _ _ hup
    subst hw₂
    refine ⟨?_, rfl⟩
    intro i' hi
    have hi' : imgGet (imgSet w.images { img with status := st }) id =
        some i' := hi
    rcases imgGet_imgSet_cases _ _ _ _ hi' with rfl | hold
    · exact href
    · exact hw i' hold
  by_cases hl : img.spec.limits ≠ []
  · rcases hsl : setImageLimits o w img with ⟨resL, wL, tL⟩
    have hwL : wL = w := by
      have h := setImageLimits_world o w img
      rw [hsl] at h
      exact h
    rw [hwL] at hsl
    cases resL with
    | error e =>
      have h21 : (finishImage o c w img).2.1 = w := by
        simp [finishImage, hl, hsl]
      rw [h21]
      exact ⟨hw, rfl⟩
    | ok u =>
      cases hfa : fetchAuth o c with
      | error e =>
        have h21 : (finishImage o c w img).2.1 = w := by
          simp [finishImage, hl, hsl, hfa]
        rw [h21]
        exact ⟨hw, rfl⟩
      | ok pr =>
        rcases pr with ⟨user, key⟩
        cases hup : storeUpdateImage w
            { img with status :=
                { state := ImageState.available,
                  access := some
                    { monitors := c.monitors,
                      handle := c.pool ++ "/" ++ img.id,
                      user := user, userKey := key, wwn := o.wwn } } } with
        | none =>
          have h21 : (finishImage o c w img).2.1 = w := by
            simp [finishImage, hl, hsl, hfa, hup]
          rw [h21]
          exact ⟨hw, rfl⟩
        | some w₂ =>
          have h21 : (finishImage o c w img).2.1 = w₂ := by
            simp [finishImage, hl, hsl, hfa, hup]
          rw [h21]
          exact hupd _ _ hup
  · cases hfa : fetchAuth o c with
    | error e =>
      have h21 : (finishImage o c w img).2.1 = w := by
        simp [finishImage, hl, hfa]
      rw [h21]
      exact ⟨hw, rfl⟩
    | ok pr =>
      rcases pr with ⟨user, key⟩
      cases hup : storeUpdateImage w
          { img with status :=
              { state := ImageState.available,
                access := some
                  { monitors := c.monitors,
                    handle := c.pool ++ "/" ++ img.id,
                    user := user, userKey := key, wwn := o.wwn } } } with
      | none =>
        have h21 : (finishImage o c w img).2.1 = w := by
          simp [finishImage, hl, hfa, hup]
        rw [h21]
        exact ⟨hw, rfl⟩
      | some w₂ =>
        have h21 : (finishImage o c w img).2.1 = w₂ := by
          simp [finishImage, hl, hfa, hup]
        rw [h21]
        exact hupd _ _ hup

/-- After the snapshot reference is recorded, the tail phases of the image
reconciliation keep it recorded and never touch the snapshot store. -/
theorem reconcileImageTail_ref (o : Oracle) (c : ReconCfg) (w : World)
    (img : Image) (id s : String)
    (href : img.spec.snapshotRef = some s)
    (hw : ∀ i', imgGet w.images id = some i' →
      i'.spec.snapshotRef = some s) :
    (∀ i', imgGet ((reconcileImageTail o c w img).2.1).images id = some i' →
      i'.spec.snapshotRef = some s) ∧
    ((reconcileImageTail o c w img).2.1).snapshots = w.snapshots := by
  have hrs := reconcileSnapshot_of_ref_some o w img s href
  by_cases hso : o.setOptionOk
  · rcases hcf : createImageFromSnapshot o w img s with ⟨resC, wC, tC⟩
    have hstores := createImageFromSnapshot_stores o w img s
    rw [hcf] at hstores
    cases resC with
    | error e =>
      have h21 : (reconcileImageTail o c w img).2.1 = wC := by
        simp [reconcileImageTail, hrs, hso, href, hcf]
      rw [h21]
      exact ⟨fun i' hi => hw i' (hstores.1 ▸ hi), hstores.2⟩
    | ok b =>
      cases b with
      | false =>
        have h21 : (reconcileImageTail o c w img).2.1 = wC := by
          simp [reconcileImageTail, hrs, hso, href, hcf]
        rw [h21]
        exact ⟨fun i' hi => hw i' (hstores.1 ▸ hi), hstores.2⟩
      | true =>
        have hfin := finishImage_ref o c wC img id s href
          (fun i' hi => hw i' (hstores.1 ▸ hi))
        have h21 : (reconcileImageTail o c w img).2.1 =
            (finishImage o c wC img).2.1 := by
          rcases hFI : finishImage o c wC img with ⟨resF, wF, tF⟩
          cases resF <;> simp [reconcileImageTail, hrs, hso, href, hcf, hFI]
        rw [h21]
        exact ⟨hfin.1, hfin.2.trans hstores.2⟩
  · have h21 : (reconcileImageTail o c w img).2.1 = w := by
      simp [reconcileImageTail, hrs, hso]
    rw [h21]
    exact ⟨hw, rfl⟩

/-- C6: a recorded `SnapshotRef` is never cleared or overwritten — after any
full reconciliation of an image whose reference is already `s`, the stored
image still references `s`, the snapshot store is unchanged (no second
snapshot is created), and `reconcileSnapshot` itself is a no-op on such an
image. -/
theorem C6_snapshotRef_stable (o : Oracle) (c : ReconCfg) (w : World)
    (id : String) (img : Image) (s : String)
    (hg : imgGet w.images id = some img)
    (href : img.spec.snapshotRef = some s) :
    (∀ i', imgGet ((reconcileImage o c w id).2.1).images id = some i' →
      i'.spec.snapshotRef = some s) ∧
    ((reconcileImage o c w id).2.1).snapshots = w.snapshots ∧
    reconcileSnapshot o w img = (.ok img, w, []) := by
  have hbase : ∀ i', imgGet w.images id = some i' →
      i'.spec.snapshotRef = some s := by
    intro i' hi
    rw [hg] at hi
    injection hi with h
    rw [← h]
    exact href
  have himgid := imgGet_eq_id _ _ _ hg
  by_cases ho : o.openOk
  · cases hd : img.deletedAt with
    | some t =>
      have hframe := deleteImage_frame o w img
      have h21 : (reconcileImage o c w id).2.1 = (deleteImage o w img).2.1 := by
        rcases hdel : deleteImage o w img with ⟨resD, wD, tD⟩
        cases resD <;> simp [reconcileImage, ho, hg, hd, hdel]
      refine ⟨?_, ?_, reconcileSnapshot_of_ref_some o w img s href⟩
      · rw [h21]
        intro i' hi
        rcases hframe.2 id i' hi with hold | hkeep
        · exact hbase i' hold
        · rw [hkeep.1]
          exact href
      · rw [h21]
        exact hframe.1
    | none =>
      by_cases ha : img.status.state = ImageState.available
      · have h21 : (reconcileImage o c w id).2.1 = w := by
          simp [reconcileImage, ho, hg, hd, ha]
        rw [h21]
        exact ⟨hbase, rfl, reconcileSnapshot_of_ref_some o w img s href⟩
      · by_cases hf : ImageFinalizer ∈ img.finalizers
        · have hef : ensureFinalizer w img = (.ok img, w, []) := by
            simp [ensureFinalizer, hf]
          have htail := reconcileImageTail_ref o c w img id s href hbase
          have h21 : (reconcileImage o c w id).2.1 =
              (reconcileImageTail o c w img).2.1 := by
            rcases ht : reconcileImageTail o c w img with ⟨resT, wT, tT⟩
            cases resT <;> simp [reconcileImage, ho, hg, hd, ha, hef, ht]
          rw [h21]
          exact ⟨htail.1, htail.2,
            reconcileSnapshot_of_ref_some o w img s href⟩
        · have hg' : imgGet w.images img.id = some img := by
            rw [himgid]; exact hg
          have hef : ensureFinalizer w img =
              (.ok (withFin img), worldSet w (withFin img),
                [Action.storeImageUpdate (withFin img)]) := by
            simp [ensureFinalizer, hf, storeUpdateImage, hg', withFin,
              worldSet]
          have href₁ : (withFin img).spec.snapshotRef = some s := href
          have hbase₁ : ∀ i',
              imgGet (worldSet w (withFin img)).images id = some i' →
              i'.spec.snapshotRef = some s := by
            intro i' hi
            simp only [worldSet] at hi
            rcases imgGet_imgSet_cases _ _ _ _ hi with rfl | hold
            · exact href
            · exact hbase i' hold
          have htail := reconcileImageTail_ref o c (worldSet w (withFin img))
            (withFin img) id s href₁ hbase₁
          have h21 : (reconcileImage o c w id).2.1 =
              (reconcileImageTail o c (worldSet w (withFin img))
                (withFin img)).2.1 := by
            rcases ht : reconcileImageTail o c (worldSet w (withFin img))
                (withFin img) with ⟨resT, wT, tT⟩
            cases resT <;> simp [reconcileImage, ho, hg, hd, ha, hef, ht]
          rw [h21]
          refine ⟨htail.1, ?_, reconcileSnapshot_of_ref_some o w img s href⟩
          rw [htail.2]
          rfl
  · have h21 : (reconcileImage o c w id).2.1 = w := by
      simp [reconcileImage, ho]
    rw [h21]
    exact ⟨hbase, rfl, reconcileSnapshot_of_ref_some o w img s href⟩

/-- Witness: running `C6_snapshotRef_stable` on the concrete clone scenario,
whose reconciliation reaches Available while keeping reference `d1`. -/
theorem C6_snapshotRef_stable_witness :
    imgGet worldClone.images "i" = some imgRef ∧
    imgRef.spec.snapshotRef = some "d1" ∧
    ((reconcileImage oracleAllOk cfg0 worldClone "i").2.1).snapshots =
      worldClone.snapshots :=
  ⟨by decide, rfl,
    (C6_snapshotRef_stable oracleAllOk cfg0 worldClone "i" imgRef "d1"
      (by decide) rfl).2.1⟩

end CephProvider
